import Mathlib

/-
Verification of the libfetch install/upgrade state machine and fetch pipeline.

Shallow embedding notes:
- The HTTP transport, JSON codec and archive decoders are external
  collaborators of the program; they are modelled semantically. A call to
  the remote API is an oracle value, the JSON codec is modelled by the
  FileContent type (a file either holds a well-formed version record or
  arbitrary unparseable text), and filesystem mutations are recorded as an
  explicit Effect trace alongside an explicit World state.
- Machine integers (u32 retry_count) are modelled as Nat; no arithmetic in
  the program can overflow them on the inputs considered.
-/

/-- Version information stored in version.json (install.rs, struct VersionInfo). -/
structure VersionInfo where
  tag_name : String
  repo : String
deriving Repr, DecidableEq

/-- Semantic model of the bytes a file can hold: either a well-formed
serialized VersionInfo record, or arbitrary text that the JSON codec
rejects.  This models the external serde_json collaborator. -/
inductive FileContent where
  | json : VersionInfo → FileContent
  | raw : String → FileContent
deriving Repr, DecidableEq

/-- A filesystem object created by extraction, identified by its path
components relative to the filesystem root. -/
inductive FsObj where
  | dir : List String → FsObj
  | file : List String → String → FsObj
  | slink : List String → String → FsObj
deriving Repr, DecidableEq

/-- Path of a filesystem object. -/
def FsObj.path : FsObj → List String
  | .dir p => p
  | .file p _ => p
  | .slink p _ => p

/-- State of the install directory: the version.json file (None when the
file does not exist), the other installed payload objects, and whether the
directory itself exists. -/
structure World where
  versionFile : Option FileContent
  dirFiles : List FsObj
  dirExists : Bool
deriving Repr, DecidableEq

/-- Observable side effects of one install operation, at the granularity of
the library calls the source issues.  renameFile is the atomic-replace
primitive the filesystem offers; the program never emits it. -/
inductive Effect where
  | latestCall
  | downloadCall (asset version : String)
  | removeDirAll (path : String)
  | createDirAll (path : String)
  | writeFile (path : String) (content : FileContent)
  | renameFile (src dst : String)
deriving Repr, DecidableEq

/-- Model of serde_json::from_str::<VersionInfo> over the semantic file
contents: a json record parses to itself, raw text is rejected. -/
def serde_from_str : FileContent → Except String VersionInfo
  | .json v => .ok v
  | .raw s => .error ("invalid JSON: " ++ s)

/-- Operating-system message for reading a missing file, as surfaced by
std::fs::read_to_string. -/
def fsReadErrorMsg : String := "No such file or directory (os error 2)"

/-- Model of std::fs::read_to_string on the version file path: returns the
contents when the file exists, an OS error otherwise. -/
def read_to_string (w : World) : Except String FileContent :=
  match w.versionFile with
  | some c => .ok c
  | none => .error fsReadErrorMsg

/-- Downloader configuration (downloader.rs, struct Downloader).  The
retry delay is in seconds.  The progress callback and proxy carry no
decision logic relevant to the verified claims and are omitted. -/
structure Downloader where
  retry_count : Nat
  retry_delay : Nat
  api_url : String
  repo : String
deriving Repr, DecidableEq

/-- Downloader::new — default configuration (retry_count 3, delay 3 s). -/
def Downloader.new (repo : String) : Downloader :=
  { retry_count := 3
    retry_delay := 3
    api_url := "https://api.github.com/repos/" ++ repo ++ "/releases/latest"
    repo := repo }

/-- Loop body of Downloader::latest_version.  `attempt i` is the oracle
outcome of the i-th call to get_latest_version (a network interaction).
Returns the result, the number of attempts performed, and the list of
sleep durations executed (one fixed retry_delay after every failed
attempt, as in the source).  Structural recursion on the remaining fuel,
which starts at retry_count. -/
def latestVersionAux (attempt : Nat → Except String String) (retry_delay : Nat) :
    Nat → Nat → String → Except String String × Nat × List Nat
  | _, 0, lastErr => (.error ("unable to fetch latest version: " ++ lastErr), 0, [])
  | i, fuel + 1, _ =>
    match attempt i with
    | .ok v => (.ok v, 1, [])
    | .error e =>
      let r := latestVersionAux attempt retry_delay (i + 1) fuel e
      (r.1, r.2.1 + 1, retry_delay :: r.2.2)

/-- Downloader::latest_version — retry get_latest_version up to retry_count
times, sleeping retry_delay between attempts, and on exhaustion return an
error embedding the failure message of the last attempt. -/
def Downloader.latest_version (d : Downloader) (attempt : Nat → Except String String) :
    Except String String × Nat × List Nat :=
  latestVersionAux attempt d.retry_delay 0 d.retry_count ""

theorem latestVersionAux_step_error (attempt : Nat → Except String String)
    (d i fuel : Nat) (lastErr e : String) (h : attempt i = .error e) :
    latestVersionAux attempt d i (fuel + 1) lastErr =
      ((latestVersionAux attempt d (i + 1) fuel e).1,
        (latestVersionAux attempt d (i + 1) fuel e).2.1 + 1,
        d :: (latestVersionAux attempt d (i + 1) fuel e).2.2) := by
  conv_lhs => rw [latestVersionAux]
  rw [h]

theorem latestVersionAux_all_fail (attempt : Nat → Except String String)
    (errs : Nat → String) (d : Nat) :
    ∀ (f i : Nat) (lastErr : String),
      (∀ j, j < f + 1 → attempt (i + j) = .error (errs (i + j))) →
      latestVersionAux attempt d i (f + 1) lastErr =
        (.error ("unable to fetch latest version: " ++ errs (i + f)), f + 1,
          List.replicate (f + 1) d) := by
  intro f
  induction f with
  | zero =>
    intro i lastErr h
    have h0 : attempt i = .error (errs i) := by
      have := h 0 (by omega)
      simpa using this
    rw [latestVersionAux_step_error attempt d i 0 lastErr (errs i) h0]
    simp [latestVersionAux]
  | succ n ih =>
    intro i lastErr h
    have h0 : attempt i = .error (errs i) := by
      have := h 0 (by omega)
      simpa using this
    have hrec := ih (i + 1) (errs i) (by
      intro j hj
      have := h (j + 1) (by omega)
      simpa [Nat.add_assoc, Nat.add_comm 1 j] using this)
    rw [latestVersionAux_step_error attempt d i (n + 1) lastErr (errs i) h0, hrec]
    have harith : i + 1 + n = i + (n + 1) := by omega
    simp [harith, List.replicate_succ]

/-- Downloader::get_release_asset_url_by_version — the download URL is
constructed client-side from repository, version and asset name. -/
def Downloader.get_release_asset_url_by_version (d : Downloader)
    (asset_name version : String) : String :=
  "https://github.com/" ++ d.repo ++ "/releases/download/" ++ version ++ "/" ++ asset_name

/-- Archive kind the fetch routine dispatches on (Downloader::fetch):
tar.gz and zip payloads are buffered and extracted, anything else is
streamed raw to disk without extraction. -/
inductive FetchKind where
  | tarGz
  | zip
  | raw
deriving Repr, DecidableEq

/-- Model of str::ends_with, computed over the character lists. -/
def ends_with_chars (s suf : String) : Bool :=
  suf.toList.isSuffixOf s.toList

/-- Suffix dispatch of Downloader::fetch. -/
def fetchKind (url : String) : FetchKind :=
  if ends_with_chars url ".tar.gz" then .tarGz
  else if ends_with_chars url ".zip" then .zip
  else .raw

/-- URL resolution step of Downloader::download_asset.  The latest oracle
is the outcome Downloader::latest_version would produce.  Returns the URL
together with a flag recording whether latest-version URL resolution
(get_release_asset_url, taken only when the version argument is empty) was
performed. -/
def Downloader.download_asset_url (d : Downloader) (asset_name version : String)
    (latest : Except String String) : Except String (String × Bool) :=
  if version.isEmpty then
    match latest with
    | .error e => .error e
    | .ok v => .ok (d.get_release_asset_url_by_version asset_name v, true)
  else
    .ok (d.get_release_asset_url_by_version asset_name version, false)

/-- One tar entry kind, as the tar crate reports it: a directory, a
symlink carrying an optional link target, or any other entry which the
source unpacks as a regular file with the given content. -/
inductive TarEntryType where
  | directory
  | symlink (link_name : Option String)
  | file (content : String)
deriving Repr, DecidableEq

/-- One entry of a tar archive, with its path as components. -/
structure TarEntry where
  path : List String
  entry_type : TarEntryType
deriving Repr, DecidableEq

/-- Entry mapping of Downloader::download_and_extract_tar_gz: strip the
first path component; skip the entry when the remainder is empty; join the
remainder to the destination; directories are created, symlinks with a
link target are recreated, other entries become regular files whose parent
directory is created first. -/
def extract_entry (dest : List String) (e : TarEntry) : List FsObj :=
  let stripped := e.path.drop 1
  if stripped.isEmpty then []
  else
    let outpath := dest ++ stripped
    match e.entry_type with
    | .directory => [.dir outpath]
    | .symlink (some l) => [.slink outpath l]
    | .symlink none => []
    | .file c => [.dir outpath.dropLast, .file outpath c]

/-- Extraction loop of Downloader::download_and_extract_tar_gz over the
decoded entries (gzip inflation and tar parsing are the external archive
collaborators; the entries are their output). -/
def extract_tar_gz (dest : List String) (entries : List TarEntry) : List FsObj :=
  entries.flatMap (extract_entry dest)

/-- Install configuration (install.rs, struct Install).  version_file is
"version.json" in Install::new. -/
structure Install where
  version_file : String
  repo : String
  install_path : String
deriving Repr, DecidableEq

/-- Install::new — default field values. -/
def Install.new (repo install_path : String) : Install :=
  { version_file := "version.json", repo := repo, install_path := install_path }

/-- Install::version_file_path. -/
def Install.version_file_path (s : Install) : String :=
  s.install_path ++ "/" ++ s.version_file

/-- Install::already_installed — the version file path exists. -/
def Install.already_installed (_s : Install) (w : World) : Bool :=
  w.versionFile.isSome

/-- Remote oracles one install operation interacts with: the outcome of
Downloader::latest_version, and the outcome of Downloader::download_asset
for given asset name and version (on success, the filesystem objects the
download and extraction place into the install directory). -/
structure Env where
  latest : Except String String
  download : String → String → Except String (List FsObj)

/-- Outcome of a stateful step: its result, the final install-directory
state, and the trace of effects performed. -/
structure StepResult where
  res : Except String Unit
  world : World
  trace : List Effect
deriving Repr

/-- Install::is_latest_version — read and parse the version file, reject a
foreign repository, then query the latest remote tag and compare. -/
def Install.is_latest_version (s : Install) (env : Env) (w : World) :
    Except String (Bool × VersionInfo) × List Effect :=
  match read_to_string w with
  | .error e => (.error ("error reading version info file: " ++ e), [])
  | .ok raw =>
    match serde_from_str raw with
    | .error e => (.error ("error parsing version info: " ++ e), [])
    | .ok version_info =>
      if version_info.repo != s.repo then
        (.error ("installed version is for a different repository: " ++ version_info.repo), [])
      else
        match env.latest with
        | .error e => (.error ("error getting latest version: " ++ e), [Effect.latestCall])
        | .ok latest => (.ok (latest == version_info.tag_name, version_info), [Effect.latestCall])

/-- Install::create_version_file — create_dir_all on the install path then
a single direct std::fs::write of the serialized record to the final
version file path.  In the model both filesystem calls succeed; their
failure branches only rewrap OS errors. -/
def Install.create_version_file (s : Install) (version : String) (w : World) : StepResult :=
  let info : VersionInfo := { tag_name := version, repo := s.repo }
  { res := .ok ()
    world := { versionFile := some (.json info), dirFiles := w.dirFiles, dirExists := true }
    trace := [Effect.createDirAll s.install_path,
              Effect.writeFile s.version_file_path (.json info)] }

/-- Install::get_installed_version — read and parse the version file. -/
def Install.get_installed_version (_s : Install) (w : World) : Except String VersionInfo :=
  match read_to_string w with
  | .error e => .error ("error reading version info file: " ++ e)
  | .ok raw =>
    match serde_from_str raw with
    | .error e => .error ("error parsing version info: " ++ e)
    | .ok version_info => .ok version_info

/-- Install::initial_install_asset — download the asset, then resolve the
version to persist (the latest remote tag when the requested version is
empty, the requested version verbatim otherwise), then write the version
file. -/
def Install.initial_install_asset (s : Install) (env : Env) (asset_name version : String)
    (w : World) : StepResult :=
  match env.download asset_name version with
  | .error e =>
    { res := .error ("error downloading asset: " ++ e), world := w
      trace := [Effect.downloadCall asset_name version] }
  | .ok objs =>
    let w1 : World := { w with dirFiles := w.dirFiles ++ objs, dirExists := true }
    if version.isEmpty then
      match env.latest with
      | .error e =>
        { res := .error ("error getting latest version: " ++ e), world := w1
          trace := [Effect.downloadCall asset_name version, Effect.latestCall] }
      | .ok v =>
        let r := s.create_version_file v w1
        { res := r.res, world := r.world
          trace := [Effect.downloadCall asset_name version, Effect.latestCall] ++ r.trace }
    else
      let r := s.create_version_file version w1
      { res := r.res, world := r.world
        trace := [Effect.downloadCall asset_name version] ++ r.trace }

/-- Install::upgrade_asset — remove the whole install directory when it
exists, fetch the newest tag, download with an empty asset name and that
tag as the version argument, and write the new version file. -/
def Install.upgrade_asset (s : Install) (env : Env) (w : World) : StepResult :=
  let removed : World × List Effect :=
    if w.dirExists then
      ({ versionFile := none, dirFiles := [], dirExists := false },
       [Effect.removeDirAll s.install_path])
    else (w, [])
  let w1 := removed.1
  let t1 := removed.2
  match env.latest with
  | .error e =>
    { res := .error ("error getting latest version: " ++ e), world := w1
      trace := t1 ++ [Effect.latestCall] }
  | .ok latest =>
    match env.download "" latest with
    | .error e =>
      { res := .error ("error downloading asset: " ++ e), world := w1
        trace := t1 ++ [Effect.latestCall, Effect.downloadCall "" latest] }
    | .ok objs =>
      let w2 : World := { w1 with dirFiles := w1.dirFiles ++ objs, dirExists := true }
      let r := s.create_version_file latest w2
      { res := r.res, world := r.world
        trace := t1 ++ [Effect.latestCall, Effect.downloadCall "" latest] ++ r.trace }

/-- Install::install_asset — the state machine: no-op when installed and
upgrades are not allowed; otherwise check staleness and upgrade; fresh
install when no version file exists. -/
def Install.install_asset (s : Install) (env : Env) (asset_name version : String)
    (allow_upgrade : Bool) (w : World) : StepResult :=
  if s.already_installed w then
    if !allow_upgrade then { res := .ok (), world := w, trace := [] }
    else
      match s.is_latest_version env w with
      | (.error e, t) => { res := .error e, world := w, trace := t }
      | (.ok (is_latest, _version_info), t) =>
        if is_latest then { res := .ok (), world := w, trace := t }
        else
          let r := s.upgrade_asset env w
          { res := r.res, world := r.world, trace := t ++ r.trace }
  else
    s.initial_install_asset env asset_name version w

/-- A trace realizes write-then-rename only when it contains a rename into
place; the direct-write trace the program produces never does. -/
def usesWriteThenRename (t : List Effect) : Bool :=
  t.any fun e => match e with
    | Effect.renameFile _ _ => true
    | _ => false

theorem create_version_file_world_isSome (s : Install) (v : String) (w : World) :
    (s.create_version_file v w).world.versionFile.isSome = true := rfl

theorem initial_install_asset_ok_isSome (s : Install) (env : Env) (a v : String) (w : World)
    (h : (s.initial_install_asset env a v w).res = .ok ()) :
    (s.initial_install_asset env a v w).world.versionFile.isSome = true := by
  cases hdl : env.download a v with
  | error e => simp [Install.initial_install_asset, hdl] at h
  | ok objs =>
    cases hv : v.isEmpty with
    | true =>
      cases hl : env.latest with
      | error e => simp [Install.initial_install_asset, hdl, hv, hl] at h
      | ok tag => simp [Install.initial_install_asset, hdl, hv, hl, Install.create_version_file]
    | false => simp [Install.initial_install_asset, hdl, hv, Install.create_version_file]

theorem upgrade_asset_ok_isSome (s : Install) (env : Env) (w : World)
    (h : (s.upgrade_asset env w).res = .ok ()) :
    (s.upgrade_asset env w).world.versionFile.isSome = true := by
  cases hl : env.latest with
  | error e => simp [Install.upgrade_asset, hl] at h
  | ok latest =>
    cases hdl : env.download "" latest with
    | error e => simp [Install.upgrade_asset, hl, hdl] at h
    | ok objs => simp [Install.upgrade_asset, hl, hdl, Install.create_version_file]

theorem install_asset_ok_isSome (s : Install) (env : Env) (a v : String) (up : Bool) (w : World)
    (h : (s.install_asset env a v up w).res = .ok ()) :
    (s.install_asset env a v up w).world.versionFile.isSome = true := by
  cases hin : w.versionFile.isSome with
  | false =>
    have hres : (s.initial_install_asset env a v w).res = .ok () := by
      simpa [Install.install_asset, Install.already_installed, hin] using h
    simpa [Install.install_asset, Install.already_installed, hin] using
      initial_install_asset_ok_isSome s env a v w hres
  | true =>
    cases hup : up with
    | false =>
      simp [Install.install_asset, Install.already_installed, hin, hup]
    | true =>
      rcases hlv : s.is_latest_version env w with ⟨r, t⟩
      cases r with
      | error e =>
        simp [Install.install_asset, Install.already_installed, hin, hup, hlv] at h
      | ok pr =>
        rcases pr with ⟨isl, vi⟩
        cases hisl : isl with
        | true =>
          simp [Install.install_asset, Install.already_installed, hin, hup, hlv, hisl]
        | false =>
          have hres : (s.upgrade_asset env w).res = .ok () := by
            simpa [Install.install_asset, Install.already_installed, hin, hup, hlv, hisl]
              using h
          simpa [Install.install_asset, Install.already_installed, hin, hup, hlv, hisl]
            using upgrade_asset_ok_isSome s env w hres

/-- C1: on the upgrade path (version state exists, allow_upgrade true), a
persisted repository identifier different from the configured one makes
install_asset fail with the foreign-installation error, with an empty
effect trace (no directory removal, no file write, no network call) and
the install directory state unchanged. -/
theorem spec_c1_foreign_repo_guard (s : Install) (env : Env) (asset_name version : String)
    (w : World) (info : VersionInfo)
    (hfile : w.versionFile = some (.json info)) (hrepo : info.repo ≠ s.repo) :
    s.install_asset env asset_name version true w =
      { res := .error ("installed version is for a different repository: " ++ info.repo)
        world := w
        trace := [] } := by
  have hbne : (info.repo != s.repo) = true := by simp [bne_iff_ne, hrepo]
  simp [Install.install_asset, Install.already_installed, Install.is_latest_version,
    read_to_string, serde_from_str, hfile, hbne]

theorem spec_c1_foreign_repo_guard_witness :
    Install.install_asset { version_file := "version.json", repo := "c/d", install_path := "./out" }
        { latest := .ok "v9", download := fun _ _ => .ok [] } "a.zip" "" true
        { versionFile := some (.json { tag_name := "v1", repo := "a/b" })
          dirFiles := [], dirExists := true } =
      { res := .error ("installed version is for a different repository: " ++ "a/b")
        world := { versionFile := some (.json { tag_name := "v1", repo := "a/b" })
                   dirFiles := [], dirExists := true }
        trace := [] } :=
  spec_c1_foreign_repo_guard _ _ _ _ _ { tag_name := "v1", repo := "a/b" } rfl (by decide)

/-- C2: when the version state file exists and allow_upgrade is false,
install_asset is a pure no-op success (empty effect trace, world
unchanged); and every successful install_asset leaves the state file in
place, so a second call with allow_upgrade false after any successful
first call is such a no-op. -/
theorem spec_c2_noop_when_installed :
    (∀ (s : Install) (env : Env) (a v : String) (w : World),
        w.versionFile.isSome = true →
        s.install_asset env a v false w = { res := .ok (), world := w, trace := [] }) ∧
    (∀ (s : Install) (env env2 : Env) (a v a2 v2 : String) (up : Bool) (w : World),
        (s.install_asset env a v up w).res = .ok () →
        s.install_asset env2 a2 v2 false (s.install_asset env a v up w).world =
          { res := .ok (), world := (s.install_asset env a v up w).world, trace := [] }) := by
  have part1 : ∀ (s : Install) (env : Env) (a v : String) (w : World),
      w.versionFile.isSome = true →
      s.install_asset env a v false w = { res := .ok (), world := w, trace := [] } := by
    intro s env a v w h
    simp [Install.install_asset, Install.already_installed, h]
  refine ⟨part1, ?_⟩
  intro s env env2 a v a2 v2 up w h
  exact part1 s env2 a2 v2 _ (install_asset_ok_isSome s env a v up w h)

theorem spec_c2_noop_when_installed_witness :
    Install.install_asset { version_file := "version.json", repo := "owner/repo", install_path := "./out" }
        { latest := .error "offline", download := fun _ _ => .error "offline" } "a.zip" "v1" false
        { versionFile := some (.json { tag_name := "v1", repo := "owner/repo" })
          dirFiles := [], dirExists := true } =
      { res := .ok ()
        world := { versionFile := some (.json { tag_name := "v1", repo := "owner/repo" })
                   dirFiles := [], dirExists := true }
        trace := [] } :=
  spec_c2_noop_when_installed.1 _ _ _ _ _ rfl

/-- C3: on the upgrade path with a matching repository, when the resolved
remote latest tag equals the persisted tag, install_asset succeeds and the
only effect is the read-only latest-version query: no download, no
extraction, no filesystem mutation, world unchanged. -/
theorem spec_c3_upgrade_skip (s : Install) (env : Env) (asset_name version : String)
    (w : World) (info : VersionInfo)
    (hfile : w.versionFile = some (.json info)) (hrepo : info.repo = s.repo)
    (hlatest : env.latest = .ok info.tag_name) :
    s.install_asset env asset_name version true w =
      { res := .ok (), world := w, trace := [Effect.latestCall] } := by
  simp [Install.install_asset, Install.already_installed, Install.is_latest_version,
    read_to_string, serde_from_str, hfile, hrepo, hlatest]

theorem spec_c3_upgrade_skip_witness :
    Install.install_asset { version_file := "version.json", repo := "owner/repo", install_path := "./out" }
        { latest := .ok "v1.0.0", download := fun _ _ => .error "must not be called" } "a.zip" "" true
        { versionFile := some (.json { tag_name := "v1.0.0", repo := "owner/repo" })
          dirFiles := [FsObj.file ["old.bin"] "o"], dirExists := true } =
      { res := .ok ()
        world := { versionFile := some (.json { tag_name := "v1.0.0", repo := "owner/repo" })
                   dirFiles := [FsObj.file ["old.bin"] "o"], dirExists := true }
        trace := [Effect.latestCall] } :=
  spec_c3_upgrade_skip _ _ _ _ _ { tag_name := "v1.0.0", repo := "owner/repo" } rfl rfl rfl

/-- C10: with allow_upgrade false, install_asset returns success purely on
the existence of the version state file, whatever its contents: the same
no-op success results for an unparseable file or for a record naming a
different repository, because the foreign-installation check and the
parsing run only on the upgrade path. -/
theorem spec_c10_existence_only_check (s : Install) (env : Env) (asset_name version : String)
    (w : World) (c : FileContent) (hfile : w.versionFile = some c) :
    s.install_asset env asset_name version false w =
      { res := .ok (), world := w, trace := [] } := by
  simp [Install.install_asset, Install.already_installed, hfile]

theorem spec_c10_existence_only_check_witness :
    Install.install_asset { version_file := "version.json", repo := "c/d", install_path := "./out" }
        { latest := .ok "v9", download := fun _ _ => .ok [] } "a.zip" "" false
        { versionFile := some (.raw "this is not json")
          dirFiles := [], dirExists := true } =
      { res := .ok ()
        world := { versionFile := some (.raw "this is not json")
                   dirFiles := [], dirExists := true }
        trace := [] } :=
  spec_c10_existence_only_check _ _ _ _ _ (.raw "this is not json") rfl

/-- C4: an upgrade that removes the install directory and then fails
during the re-download leaves no version state file behind (the state file
is only written after the download succeeds), so any subsequent
install_asset call on the resulting state takes the fresh-install path. -/
theorem spec_c4_failed_upgrade_goes_fresh (s : Install) (env : Env) (asset_name version : String)
    (w : World) (info : VersionInfo) (ltag derr : String)
    (hfile : w.versionFile = some (.json info)) (hrepo : info.repo = s.repo)
    (hdir : w.dirExists = true)
    (hlatest : env.latest = .ok ltag) (hstale : ltag ≠ info.tag_name)
    (hdl : env.download "" ltag = .error derr) :
    s.install_asset env asset_name version true w =
      { res := .error ("error downloading asset: " ++ derr)
        world := { versionFile := none, dirFiles := [], dirExists := false }
        trace := [Effect.latestCall, Effect.removeDirAll s.install_path,
                  Effect.latestCall, Effect.downloadCall "" ltag] } ∧
    ∀ (env2 : Env) (a2 v2 : String) (up2 : Bool),
      s.install_asset env2 a2 v2 up2 { versionFile := none, dirFiles := [], dirExists := false } =
        s.initial_install_asset env2 a2 v2
          { versionFile := none, dirFiles := [], dirExists := false } := by
  constructor
  · have hbe : (ltag == info.tag_name) = false := by simp [hstale]
    simp [Install.install_asset, Install.already_installed, Install.is_latest_version,
      Install.upgrade_asset, read_to_string, serde_from_str, hfile, hrepo, hlatest,
      hbe, hdir, hdl]
  · intro env2 a2 v2 up2
    simp [Install.install_asset, Install.already_installed]

theorem spec_c4_failed_upgrade_goes_fresh_witness :
    Install.install_asset { version_file := "version.json", repo := "owner/repo", install_path := "./out" }
        { latest := .ok "v2.0.0", download := fun _ _ => .error "conn reset" } "a.zip" "" true
        { versionFile := some (.json { tag_name := "v1.0.0", repo := "owner/repo" })
          dirFiles := [FsObj.file ["old.bin"] "o"], dirExists := true } =
      { res := .error ("error downloading asset: " ++ "conn reset")
        world := { versionFile := none, dirFiles := [], dirExists := false }
        trace := [Effect.latestCall, Effect.removeDirAll "./out",
                  Effect.latestCall, Effect.downloadCall "" "v2.0.0"] } :=
  (spec_c4_failed_upgrade_goes_fresh
    { version_file := "version.json", repo := "owner/repo", install_path := "./out" }
    { latest := .ok "v2.0.0", download := fun _ _ => .error "conn reset" } "a.zip" ""
    { versionFile := some (.json { tag_name := "v1.0.0", repo := "owner/repo" })
      dirFiles := [FsObj.file ["old.bin"] "o"], dirExists := true }
    { tag_name := "v1.0.0", repo := "owner/repo" } "v2.0.0" "conn reset"
    rfl rfl rfl rfl (by decide) rfl).1

/-- C5: version resolution with a positive retry_count performs exactly
retry_count attempts when every attempt fails, sleeping the same fixed
retry_delay after each failed attempt regardless of the failure message,
and returns an error embedding the failure detail of the last attempt;
the default configuration uses retry_count 3. -/
theorem spec_c5_retry_exhaustion :
    (∀ repo, (Downloader.new repo).retry_count = 3) ∧
    ∀ (d : Downloader) (attempt : Nat → Except String String) (errs : Nat → String) (n : Nat),
      d.retry_count = n + 1 →
      (∀ j, j < n + 1 → attempt j = .error (errs j)) →
      d.latest_version attempt =
        (.error ("unable to fetch latest version: " ++ errs n), n + 1,
          List.replicate (n + 1) d.retry_delay) := by
  constructor
  · intro repo
    rfl
  · intro d attempt errs n hc h
    unfold Downloader.latest_version
    rw [hc]
    have := latestVersionAux_all_fail attempt errs d.retry_delay n 0 "" (by
      intro j hj
      simpa using h j hj)
    simpa using this

theorem spec_c5_retry_exhaustion_witness :
    (Downloader.new "owner/repo").latest_version (fun _ => .error "connection refused") =
      (.error ("unable to fetch latest version: " ++ "connection refused"), 2 + 1,
        List.replicate (2 + 1) (Downloader.new "owner/repo").retry_delay) :=
  spec_c5_retry_exhaustion.2 (Downloader.new "owner/repo")
    (fun _ => .error "connection refused") (fun _ => "connection refused") 2 rfl
    (fun _ _ => rfl)

/-- C6 counterexample: the claim that the version state file is written
atomically via write-then-rename is false of the program.  On a concrete
configuration, create_version_file issues create_dir_all followed by a
single direct write of the final version file path, and its effect trace
contains no rename. -/
theorem spec_c6_counterexample :
    Install.create_version_file
        { version_file := "version.json", repo := "owner/repo", install_path := "./out" }
        "v2.0.0" { versionFile := none, dirFiles := [], dirExists := false } =
      { res := .ok ()
        world := { versionFile := some (.json { tag_name := "v2.0.0", repo := "owner/repo" })
                   dirFiles := [], dirExists := true }
        trace := [Effect.createDirAll "./out",
                  Effect.writeFile "./out/version.json"
                    (.json { tag_name := "v2.0.0", repo := "owner/repo" })] } ∧
    usesWriteThenRename
        [Effect.createDirAll "./out",
         Effect.writeFile "./out/version.json"
           (.json { tag_name := "v2.0.0", repo := "owner/repo" })] = false := by
  constructor
  · rfl
  · rfl

/-- C6 amended: the version state file is created or overwritten by
create_dir_all followed by one direct in-place std::fs::write of the final
path; no write-then-rename or other atomic-replace mechanism is used, so
the trace of every create_version_file call contains a direct write and no
rename. -/
theorem spec_c6_direct_write (s : Install) (version : String) (w : World) :
    s.create_version_file version w =
      { res := .ok ()
        world := { versionFile := some (.json { tag_name := version, repo := s.repo })
                   dirFiles := w.dirFiles, dirExists := true }
        trace := [Effect.createDirAll s.install_path,
                  Effect.writeFile s.version_file_path
                    (.json { tag_name := version, repo := s.repo })] } ∧
    usesWriteThenRename (s.create_version_file version w).trace = false := by
  constructor
  · rfl
  · rfl

/-- C7: evaluation of the upgrade path at a concrete stale installation
(persisted tag v1.0.0, remote latest v2.0.0, repository owner/repo).  The
code removes the directory and re-downloads with an empty asset name, but
the version argument it passes to download_asset is the already-resolved
non-empty tag: the URL resolution therefore takes the explicit-version
branch (flag false — no latest-version URL resolution happens inside
download_asset, contradicting the comment in install.rs lines 126 to 128),
the resulting URL ends in a bare slash, and the fetch dispatch for that
URL is the raw non-extracting path, so no archive extraction occurs. -/
theorem spec_c7_upgrade_refetch_eval :
    Install.install_asset { version_file := "version.json", repo := "owner/repo", install_path := "./out" }
        { latest := .ok "v2.0.0", download := fun _ _ => .ok [FsObj.file ["payload.bin"] "bytes"] }
        "tool.zip" "" true
        { versionFile := some (.json { tag_name := "v1.0.0", repo := "owner/repo" })
          dirFiles := [FsObj.file ["old.bin"] "o"], dirExists := true } =
      { res := .ok ()
        world := { versionFile := some (.json { tag_name := "v2.0.0", repo := "owner/repo" })
                   dirFiles := [FsObj.file ["payload.bin"] "bytes"], dirExists := true }
        trace := [Effect.latestCall, Effect.removeDirAll "./out",
                  Effect.latestCall, Effect.downloadCall "" "v2.0.0",
                  Effect.createDirAll "./out",
                  Effect.writeFile "./out/version.json"
                    (.json { tag_name := "v2.0.0", repo := "owner/repo" })] } ∧
    (Downloader.new "owner/repo").download_asset_url "" "v2.0.0" (.ok "v2.0.0") =
      .ok ("https://github.com/owner/repo/releases/download/v2.0.0/", false) ∧
    fetchKind "https://github.com/owner/repo/releases/download/v2.0.0/" = FetchKind.raw := by
  refine ⟨rfl, rfl, ?_⟩
  decide

/-- C8: tar.gz extraction strips the first path component of every entry
before joining the remainder to the destination, skips every entry whose
path has at most one component (it becomes empty after stripping), and
every object it creates sits at the stripped path or at its parent
directory; on the archive of the claim (entries pkg-1.0/bin/tool and
pkg-1.0/) it produces exactly the file D/bin/tool and its parent directory
D/bin, no path containing a pkg-1.0 component and nothing for the bare
top-level directory entry. -/
theorem spec_c8_tar_strip :
    (∀ (dest : List String) (e : TarEntry), e.path.length ≤ 1 →
        extract_entry dest e = []) ∧
    (∀ (dest : List String) (e : TarEntry) (o : FsObj), o ∈ extract_entry dest e →
        o.path = dest ++ e.path.drop 1 ∨ o.path = (dest ++ e.path.drop 1).dropLast) ∧
    (∀ (dest : List String) (c : String),
        extract_tar_gz dest
            [{ path := ["pkg-1.0", "bin", "tool"], entry_type := .file c },
             { path := ["pkg-1.0"], entry_type := .directory }] =
          [FsObj.dir (dest ++ ["bin"]), FsObj.file (dest ++ ["bin", "tool"]) c]) := by
  refine ⟨?_, ?_, ?_⟩
  · intro dest e h
    have hnil : e.path.drop 1 = [] := List.drop_eq_nil_of_le h
    simp [extract_entry, hnil]
  · intro dest e o h
    rcases hp : e.path with _ | ⟨hd, tl⟩
    · simp [extract_entry, hp] at h
    · cases tl with
      | nil => simp [extract_entry, hp] at h
      | cons b t =>
        cases het : e.entry_type with
        | directory =>
          simp [extract_entry, hp, het] at h
          subst h
          left
          simp [FsObj.path, hp]
        | symlink l =>
          cases l with
          | none => simp [extract_entry, hp, het] at h
          | some tgt =>
            simp [extract_entry, hp, het] at h
            subst h
            left
            simp [FsObj.path, hp]
        | file c =>
          simp [extract_entry, hp, het] at h
          rcases h with h | h
          · subst h
            right
            simp [FsObj.path, hp]
          · subst h
            left
            simp [FsObj.path, hp]
  · intro dest c
    have hpar : (dest ++ ["bin", "tool"]).dropLast = dest ++ ["bin"] := by
      simp [List.dropLast_append]
    simp [extract_tar_gz, extract_entry, hpar]

theorem spec_c8_tar_strip_witness :
    extract_entry ["D"] { path := ["pkg-1.0"], entry_type := .directory } = [] ∧
    extract_tar_gz ["D"]
        [{ path := ["pkg-1.0", "bin", "tool"], entry_type := .file "ELF" },
         { path := ["pkg-1.0"], entry_type := .directory }] =
      [FsObj.dir ["D", "bin"], FsObj.file ["D", "bin", "tool"] "ELF"] :=
  ⟨spec_c8_tar_strip.1 ["D"] { path := ["pkg-1.0"], entry_type := .directory } (by decide),
   spec_c8_tar_strip.2.2 ["D"] "ELF"⟩

/-- C9: writing version state for any tag to any directory state and
reading it back succeeds and yields a record with exactly the written
tag_name and the configured repository; reading the installed version from
a state with no version file returns the filesystem read error, never a
default or empty record. -/
theorem spec_c9_state_roundtrip :
    (∀ (s : Install) (tag : String) (w : World),
        (s.create_version_file tag w).res = .ok () ∧
        s.get_installed_version (s.create_version_file tag w).world =
          .ok { tag_name := tag, repo := s.repo }) ∧
    (∀ (s : Install) (w : World), w.versionFile = none →
        s.get_installed_version w =
          .error ("error reading version info file: " ++ fsReadErrorMsg)) := by
  constructor
  · intro s tag w
    exact ⟨rfl, rfl⟩
  · intro s w h
    simp [Install.get_installed_version, read_to_string, h]

theorem spec_c9_state_roundtrip_witness :
    Install.get_installed_version
        { version_file := "version.json", repo := "owner/repo", install_path := "./out" }
        { versionFile := none, dirFiles := [], dirExists := false } =
      .error ("error reading version info file: " ++ fsReadErrorMsg) :=
  spec_c9_state_roundtrip.2
    { version_file := "version.json", repo := "owner/repo", install_path := "./out" }
    { versionFile := none, dirFiles := [], dirExists := false } rfl
